import Mathlib

/-!
Shallow embedding of the coding-agent repository's core components:
the file-edit tracker (src/file_tracker.py), the text-edit tool and tool
dispatcher (src/tools.py), and the deduplicated function-call queue,
session FSM and queue drain (src/gemini.py).

File contents are modelled as lists of characters; the on-disk file
system is a map from absolute paths to optional contents.  Fallible
Python operations (raising exceptions) are modelled with Option/Except.
-/

/-- An absolute file path, split as by os.path.split into the directory
part and the final component. -/
structure FPath where
  dir : String
  file : String
deriving DecidableEq

/-- Rendering of a path, as used in user-facing messages. -/
def FPath.toStr (p : FPath) : String := p.dir ++ "/" ++ p.file

/-- Pointwise update of a finite map, modelling a dictionary or
file-system write. -/
def upd {α : Type} (f : FPath → Option α) (a : FPath) (v : Option α) :
    FPath → Option α :=
  fun x => if x = a then v else f x

@[simp] theorem upd_self {α : Type} (f : FPath → Option α) (a : FPath)
    (v : Option α) : upd f a v a = v := by
  simp [upd]

@[simp] theorem upd_ne {α : Type} (f : FPath → Option α) (a x : FPath)
    (v : Option α) (h : x ≠ a) : upd f a v x = f x := by
  simp [upd, h]

/-- Backup path for a tracked file: a hidden sibling in the same
directory, named from the original file name, as in track_file:
backup_path = os.path.join(dir_path, f".{file_path}.bak"). -/
def backupName (p : FPath) : FPath :=
  ⟨p.dir, "." ++ p.file ++ ".bak"⟩

theorem backupName_ne (p : FPath) : backupName p ≠ p := by
  intro h
  have hf : ("." ++ p.file ++ ".bak").length = p.file.length := by
    have := congrArg FPath.file h
    simpa [backupName] using congrArg String.length this
  simp only [String.length_append] at hf
  have h1 : (".").length = 1 := rfl
  have h2 : (".bak").length = 4 := rfl
  omega

/-! ### Character-list operations used by the edit tool

Python's str.count and str.replace (with a non-empty pattern) scan left
to right and treat occurrences non-overlappingly; the edit tool only
calls them with a non-empty `old_str`. -/

/-- Whether `pat` is an initial segment of `s`. -/
def begins : List Char → List Char → Bool
  | [], _ => true
  | _ :: _, [] => false
  | a :: as, b :: bs => a = b && begins as bs

theorem begins_iff (pat s : List Char) :
    begins pat s = true ↔ ∃ t, s = pat ++ t := by
  induction pat generalizing s with
  | nil => simp [begins]
  | cons a as ih =>
    cases s with
    | nil => simp [begins]
    | cons b bs =>
      simp only [begins, Bool.and_eq_true, decide_eq_true_eq, ih]
      constructor
      · rintro ⟨rfl, t, rfl⟩
        exact ⟨t, rfl⟩
      · rintro ⟨t, ht⟩
        obtain ⟨rfl, rfl⟩ : a = b ∧ bs = as ++ t := by
          constructor
          · exact (List.cons.injEq .. ▸ ht).1.symm
          · exact (List.cons.injEq .. ▸ ht).2
        exact ⟨rfl, t, rfl⟩

/-- Number of non-overlapping occurrences of `pat` in `s`, scanning left
to right, as computed by Python's str.count for a non-empty pattern. -/
def countOcc (pat : List Char) : List Char → Nat
  | [] => 0
  | c :: rest =>
    if pat ≠ [] ∧ begins pat (c :: rest) = true then
      1 + countOcc pat (rest.drop (pat.length - 1))
    else
      countOcc pat rest
termination_by s => s.length
decreasing_by
  · simp only [List.length_cons]
    have := List.length_drop (pat.length - 1) rest
    omega
  · simp

/-- Replace every non-overlapping occurrence of `pat` in `s` by `rep`,
scanning left to right, as computed by Python's str.replace for a
non-empty pattern. -/
def replaceAll (pat rep : List Char) : List Char → List Char
  | [] => []
  | c :: rest =>
    if pat ≠ [] ∧ begins pat (c :: rest) = true then
      rep ++ replaceAll pat rep (rest.drop (pat.length - 1))
    else
      c :: replaceAll pat rep rest
termination_by s => s.length
decreasing_by
  · simp only [List.length_cons]
    have := List.length_drop (pat.length - 1) rest
    omega
  · simp

theorem begins_drop (pat : List Char) (c : Char) (rest : List Char)
    (hne : pat ≠ []) (hb : begins pat (c :: rest) = true) :
    c :: rest = pat ++ rest.drop (pat.length - 1) := by
  obtain ⟨t, ht⟩ := (begins_iff pat (c :: rest)).1 hb
  have hlen : 1 ≤ pat.length := by
    cases pat with
    | nil => exact absurd rfl hne
    | cons x xs => simp
  have hdrop : (c :: rest).drop pat.length = t := by
    rw [ht, List.drop_left]
  have : rest.drop (pat.length - 1) = t := by
    have h1 : (c :: rest).drop pat.length = rest.drop (pat.length - 1) := by
      cases hp : pat.length with
      | zero => omega
      | succ n => simp [hp, List.drop_succ_cons]
    rw [← h1, hdrop]
  rw [this, ← ht]

theorem replaceAll_of_countOcc_zero (pat rep : List Char) (s : List Char)
    (h : countOcc pat s = 0) : replaceAll pat rep s = s := by
  induction s using countOcc.induct pat with
  | case1 => simp [replaceAll]
  | case2 c rest hcond ih =>
    rw [countOcc, if_pos hcond] at h
    omega
  | case3 c rest hcond ih =>
    rw [countOcc, if_neg hcond] at h
    rw [replaceAll, if_neg hcond, ih h]

theorem countOcc_one_decomp (pat rep : List Char) (s : List Char)
    (h : countOcc pat s = 1) :
    ∃ a b, s = a ++ pat ++ b ∧ replaceAll pat rep s = a ++ rep ++ b := by
  induction s using countOcc.induct pat with
  | case1 => simp [countOcc] at h
  | case2 c rest hcond ih =>
    rw [countOcc, if_pos hcond] at h
    have h0 : countOcc pat (rest.drop (pat.length - 1)) = 0 := by omega
    refine ⟨[], rest.drop (pat.length - 1), ?_, ?_⟩
    · simpa using begins_drop pat c rest hcond.1 hcond.2
    · rw [replaceAll, if_pos hcond,
        replaceAll_of_countOcc_zero pat rep _ h0]
      simp
  | case3 c rest hcond ih =>
    rw [countOcc, if_neg hcond] at h
    obtain ⟨a, b, hab, hrep⟩ := ih h
    refine ⟨c :: a, b, by simp [hab], ?_⟩
    rw [replaceAll, if_neg hcond, hrep]
    simp

/-! ### File tracker (src/file_tracker.py)

State: the on-disk file system together with FileTracker._files, the
mapping from an absolute path to its optional backup path (None when the
tracked file was created by an edit).  Paths handled by the tracker are
already absolute in this model (os.path.abspath is the identity). -/

structure TrackState where
  fs : FPath → Option (List Char)
  tracker : FPath → Option (Option FPath)

/-- FileTracker.track_file, with a knob `canWrite` telling which paths
the operating system lets us create: opening the backup file for
writing can raise OSError, which propagates out of track_file (result
`none`).  Result `some b` is the normal return value b. -/
def track_file_f (canWrite : FPath → Bool) (st : TrackState) (p : FPath) :
    TrackState × Option Bool :=
  match st.tracker p with
  | some _ => (st, some false)
  | none =>
    match st.fs p with
    | some content =>
      let bp := backupName p
      if canWrite bp then
        ({ fs := upd st.fs bp (some content),
           tracker := upd st.tracker p (some (some bp)) }, some true)
      else
        (st, none)
    | none =>
      ({ st with tracker := upd st.tracker p (some none) }, some true)

/-- FileTracker.track_file on an operating system that accepts every
write (the normal case). -/
def track_file (st : TrackState) (p : FPath) : TrackState × Option Bool :=
  track_file_f (fun _ => true) st p

/-- FileTracker.untrack_file.  Returns `none` when os.remove on the
recorded backup path raises because that file is absent; `some st` is a
silent return (path not tracked) or the updated state. -/
def untrack_file (st : TrackState) (p : FPath) : Option TrackState :=
  match st.tracker p with
  | none => some st
  | some none => some { st with tracker := upd st.tracker p none }
  | some (some bp) =>
    match st.fs bp with
    | none => none
    | some _ =>
      some { fs := upd st.fs bp none, tracker := upd st.tracker p none }

/-- FileTracker.confirm_file: untrack_file plus a printed message. -/
def confirm_file (st : TrackState) (p : FPath) : Option TrackState :=
  untrack_file st p

/-- FileTracker.revert_file.  `none` models a raised exception: KeyError
when p is not in _files, or a file-system error when the recorded backup
(or, for a created file, the file itself) is absent from disk. -/
def revert_file (st : TrackState) (p : FPath) :
    Option (TrackState × String) :=
  match st.tracker p with
  | none => none
  | some (some bp) =>
    match st.fs bp with
    | none => none
    | some c =>
      some ({ fs := upd (upd st.fs p (some c)) bp none,
              tracker := upd st.tracker p none },
            "Reverted edits to " ++ p.toStr)
  | some none =>
    match st.fs p with
    | none => none
    | some _ =>
      some ({ fs := upd st.fs p none, tracker := upd st.tracker p none },
            "Reverted edits to " ++ p.toStr)

/-- A tracked entry for p is well formed when its recorded backup path
is the one track_file would have written and that backup is on disk. -/
def GoodEntry (st : TrackState) (p : FPath) : Prop :=
  ∀ bp, st.tracker p = some (some bp) →
    bp = backupName p ∧ st.fs bp ≠ none

/-! ### The text-edit tool (src/tools.py)

_edit_file validates then rewrites the file; edit_file wraps it with
the confirmation prompt, best-effort-or-not tracking and the
rollback-on-failure of a freshly created tracking entry. -/

inductive EditErr
  | sameStr
  | fileMissing
  | noMatch
  | multiMatch (n : Nat)
deriving DecidableEq

/-- _edit_file: the pure file rewrite.  Mirrors the source order of
checks: old_str == new_str first, then the append branch for an empty
old_str (mode "a" creates a missing file), then a read of the file
(raising if absent), then the zero- and multi-match validations. -/
def editFileFS (fs : FPath → Option (List Char)) (p : FPath)
    (old new : List Char) :
    Except EditErr ((FPath → Option (List Char)) × String) :=
  if old = new then
    .error .sameStr
  else if old = [] then
    .ok (upd fs p (some ((fs p).getD [] ++ new)), "Success")
  else
    match fs p with
    | none => .error .fileMissing
    | some content =>
      if countOcc old content = 0 then
        .error .noMatch
      else if 1 < countOcc old content then
        .error (.multiMatch (countOcc old content))
      else
        .ok (upd fs p (some (replaceAll old new content)), "Success")

inductive EditExc
  | aborted
  | tracking
  | editFailed (e : EditErr)
deriving DecidableEq

/-- edit_file, the tool body: confirmation prompt first (declining
raises AbortToolUseError before anything else runs), then
tracker.track_file on the path — an exception there propagates, with no
edit attempted — then _edit_file; if that raises and the path was newly
tracked, the fresh tracking entry is undone before re-raising. -/
def edit_file (canWrite : FPath → Bool) (declined : Bool)
    (st : TrackState) (p : FPath) (old new : List Char) :
    TrackState × Except EditExc String :=
  if declined then
    (st, .error .aborted)
  else
    match track_file_f canWrite st p with
    | (st1, none) => (st1, .error .tracking)
    | (st1, some isNew) =>
      match editFileFS st1.fs p old new with
      | .ok (fs2, msg) => ({ st1 with fs := fs2 }, .ok msg)
      | .error e =>
        if isNew then
          match untrack_file st1 p with
          | some st2 => (st2, .error (.editFailed e))
          | none => (st1, .error .tracking)
        else
          (st1, .error (.editFailed e))

/-! ### Deduplicated function-call queue (src/gemini.py, FunctionCallsQueue)

The queue keeps a deque of pending calls next to the set of identity
keys of the queued calls.  The key of a call is computed by _hash_call
from the call name and its argument items in sorted order; here the key
function `h` is an arbitrary function into a type with decidable
equality, covering Python's hash. -/

structure FCQueue (Call K : Type) where
  dq : List Call
  keys : Finset K

variable {Call K : Type} [DecidableEq K]

/-- The queue as first constructed: empty deque, empty key set. -/
def FCQueue.init : FCQueue Call K := ⟨[], ∅⟩

/-- FunctionCallsQueue.extend: each candidate call in order is appended
together with its key unless the key is already present (the duplicate
is dropped with a log line). -/
def FCQueue.extend (h : Call → K) :
    FCQueue Call K → List Call → FCQueue Call K
  | q, [] => q
  | q, c :: cs =>
    if h c ∈ q.keys then
      FCQueue.extend h q cs
    else
      FCQueue.extend h ⟨q.dq ++ [c], insert (h c) q.keys⟩ cs

/-- FunctionCallsQueue.pop: popleft from the deque, then remove the
call's key from the set.  `none` models the IndexError of popleft on an
empty deque, or the KeyError of removing an absent key. -/
def FCQueue.pop (h : Call → K) (q : FCQueue Call K) :
    Option (Call × FCQueue Call K) :=
  match q.dq with
  | [] => none
  | c :: rest =>
    if h c ∈ q.keys then some (c, ⟨rest, q.keys.erase (h c)⟩)
    else none

/-- FunctionCallsQueue.empty: len(self._set) == 0. -/
def FCQueue.isEmpty (q : FCQueue Call K) : Bool := q.keys.card == 0

/-- FunctionCallsQueue.discard: both containers are replaced by fresh
empty ones. -/
def FCQueue.discard (_ : FCQueue Call K) : FCQueue Call K := ⟨[], ∅⟩

/-- The representation invariant tying the two containers together: the
keys of the queued calls are pairwise distinct, and the key set holds
exactly those keys. -/
def QInv (h : Call → K) (q : FCQueue Call K) : Prop :=
  (q.dq.map h).Nodup ∧ q.keys = (q.dq.map h).toFinset

/-- States of the queue produced by any interleaving of the queue's
operations starting from the freshly constructed queue. -/
inductive QReachable (h : Call → K) : FCQueue Call K → Prop
  | init : QReachable h FCQueue.init
  | extend (q : FCQueue Call K) (cs : List Call) :
      QReachable h q → QReachable h (FCQueue.extend h q cs)
  | pop (q : FCQueue Call K) (c : Call) (q1 : FCQueue Call K) :
      QReachable h q → FCQueue.pop h q = some (c, q1) → QReachable h q1
  | discard (q : FCQueue Call K) :
      QReachable h q → QReachable h (FCQueue.discard q)

theorem qinv_init (h : Call → K) : QInv h (FCQueue.init : FCQueue Call K) := by
  constructor <;> simp [FCQueue.init, QInv]

theorem qinv_extend (h : Call → K) (q : FCQueue Call K) (cs : List Call)
    (hq : QInv h q) : QInv h (FCQueue.extend h q cs) := by
  induction cs generalizing q with
  | nil => simpa [FCQueue.extend] using hq
  | cons c cs ih =>
    rw [FCQueue.extend]
    by_cases hc : h c ∈ q.keys
    · rw [if_pos hc]
      exact ih q hq
    · rw [if_neg hc]
      refine ih _ ⟨?_, ?_⟩
      · simp only [List.map_append, List.map_cons, List.map_nil]
        rw [List.nodup_append]
        refine ⟨hq.1, by simp, ?_⟩
        intro x hx hx1
        simp only [List.mem_singleton] at hx1
        subst hx1
        exact hc (hq.2 ▸ List.mem_toFinset.2 hx)
      · simp only [List.map_append, List.map_cons, List.map_nil]
        rw [hq.2]
        ext k
        simp [List.mem_toFinset, or_comm]

theorem qinv_pop (h : Call → K) (q : FCQueue Call K) (c : Call)
    (q1 : FCQueue Call K) (hq : QInv h q)
    (hpop : FCQueue.pop h q = some (c, q1)) : QInv h q1 := by
  cases hdq : q.dq with
  | nil => simp [FCQueue.pop, hdq] at hpop
  | cons c0 rest =>
    simp only [FCQueue.pop, hdq] at hpop
    by_cases hc : h c0 ∈ q.keys
    · rw [if_pos hc] at hpop
      obtain ⟨rfl, rfl⟩ : c0 = c ∧ (⟨rest, q.keys.erase (h c0)⟩ :
          FCQueue Call K) = q1 := by
        constructor
        · exact (Prod.mk.injEq .. ▸ Option.some.injEq .. ▸ hpop).1
        · exact (Prod.mk.injEq .. ▸ Option.some.injEq .. ▸ hpop).2
      have hnod := hq.1
      rw [hdq] at hnod
      simp only [List.map_cons, List.nodup_cons] at hnod
      refine ⟨hnod.2, ?_⟩
      have hk := hq.2
      rw [hdq] at hk
      simp only [List.map_cons, List.toFinset_cons] at hk
      rw [hk, Finset.erase_insert]
      exact fun hmem => hnod.1 (List.mem_toFinset.1 hmem)
    · rw [if_neg hc] at hpop
      exact absurd hpop (by simp)

theorem qinv_discard (h : Call → K) (q : FCQueue Call K) :
    QInv h (FCQueue.discard q) := by
  constructor <;> simp [FCQueue.discard, QInv]

theorem qinv_reachable (h : Call → K) (q : FCQueue Call K)
    (hr : QReachable h q) : QInv h q := by
  induction hr with
  | init => exact qinv_init h
  | extend q cs _ ih => exact qinv_extend h q cs ih
  | pop q c q1 _ hpop ih => exact qinv_pop h q c q1 ih hpop
  | discard q _ => exact qinv_discard h q

/-! ### Tool dispatcher (src/tools.py, ToolManager)

Tool bodies are modelled by their outcome on given arguments: a normal
return value, the AbortToolUseError raised when the user declines the
confirmation prompt, or any other exception with its string
description. -/

/-- Tool arguments: the items of the Python argument dictionary. -/
abbrev ToolArgs : Type := List (String × String)

/-- A tool's return value: a string, a list of file names, or binary
data. -/
inductive ToolValue
  | str (s : String)
  | strList (l : List String)
  | bin (b : List Nat)
deriving DecidableEq

/-- Outcome of running a tool body on some arguments. -/
inductive ToolOutcome
  | ok (v : ToolValue)
  | abort
  | fail (desc : String)
deriving DecidableEq

/-- The envelope returned by ToolManager.call_tool. -/
structure Envelope where
  tool : String
  result : Option ToolValue
  error : Option String
  mime_type : Option String
deriving DecidableEq

/-- The behaviors of the seven registered tool bodies. -/
structure ToolBodies where
  read_text_file : ToolArgs → ToolOutcome
  read_binary_file : ToolArgs → ToolOutcome
  list_files : ToolArgs → ToolOutcome
  list_directories : ToolArgs → ToolOutcome
  shell : ToolArgs → ToolOutcome
  edit_file : ToolArgs → ToolOutcome
  code_search : ToolArgs → ToolOutcome

/-- ToolManager._tool_map: the registered tool table. -/
def lookupTool (tb : ToolBodies) : String → Option (ToolArgs → ToolOutcome)
  | "read_text_file" => some tb.read_text_file
  | "read_binary_file" => some tb.read_binary_file
  | "list_files" => some tb.list_files
  | "list_directories" => some tb.list_directories
  | "shell" => some tb.shell
  | "edit_file" => some tb.edit_file
  | "code_search" => some tb.code_search
  | _ => none

/-- Dictionary lookup args[k], first match wins. -/
def lookupArg (args : ToolArgs) (k : String) : Option String :=
  match args with
  | [] => none
  | (k1, v) :: rest => if k1 = k then some v else lookupArg rest k

/-- The extension of a file name: the characters after the last dot, or
empty when there is none, as produced by os.path.splitext followed by
ext[1:] for ordinary file names. -/
def extOf (s : String) : String :=
  let r := s.data.reverse
  if r.contains '.' then ((r.takeWhile (fun c => c ≠ '.')).reverse).asString
  else ""

/-- The extension-to-media-type table of get_mime_type. -/
def ext_mime_map : List (String × String) :=
  [("apng", "image/apng"), ("avif", "image/avif"), ("bmp", "image/bmp"),
   ("cur", "image/x-icon"), ("gif", "image/gif"), ("ico", "image/x-icon"),
   ("jfif", "image/jpeg"), ("jpg", "image/jpeg"), ("jpeg", "image/jpeg"),
   ("pdf", "application/pdf"), ("pjp", "image/jpeg"),
   ("pjpeg", "image/jpeg"), ("png", "image/png"), ("svg", "image/svg+xml"),
   ("tif", "image/tiff"), ("tiff", "image/tiff"), ("webp", "image/webp")]

/-- get_mime_type from src/tools.py. -/
def get_mime_type (path : String) : String :=
  (lookupArg ext_mime_map (extOf path)).getD "application/octet-stream"

/-- The media-type step at the top of call_tool: only read_binary_file
computes one, from args["path"] — whose lookup can raise KeyError
(result `none` here), caught by the same handler as an unknown name. -/
def mimeStep (name : String) (args : ToolArgs) : Option (Option String) :=
  if name = "read_binary_file" then
    match lookupArg args "path" with
    | none => none
    | some p => some (some (get_mime_type p))
  else
    some none

/-- The message built for an unknown tool name (and for the KeyError
caught by the same handler). -/
def unsupportedMsg (name : String) : String :=
  "Function \x27" ++ name ++ "\x27 is not supported"

/-- ToolManager.call_tool: total dispatch into the result envelope.
KeyError (unknown name, or missing "path" during the media-type step)
gives the unsupported message; AbortToolUseError gives "aborted"; any
other exception gives its description; otherwise the return value is
recorded with no error. -/
def call_tool (tb : ToolBodies) (name : String) (args : ToolArgs) :
    Envelope :=
  match mimeStep name args with
  | none =>
    { tool := name, result := none, error := some (unsupportedMsg name),
      mime_type := none }
  | some mime =>
    match lookupTool tb name with
    | none =>
      { tool := name, result := none, error := some (unsupportedMsg name),
        mime_type := mime }
    | some body =>
      match body args with
      | .ok v =>
        { tool := name, result := some v, error := none, mime_type := mime }
      | .abort =>
        { tool := name, result := none, error := some "aborted",
          mime_type := mime }
      | .fail d =>
        { tool := name, result := none, error := some d, mime_type := mime }

/-- Tool bodies that all behave the same way, for concrete scenarios. -/
def constBodies (o : ToolOutcome) : ToolBodies :=
  ⟨fun _ => o, fun _ => o, fun _ => o, fun _ => o, fun _ => o, fun _ => o,
   fun _ => o⟩

/-! ### Session controller FSM (src/gemini.py, GeminiAgent)

The states, events and transition table of the agent loop.  Actions are
identified by the handler they invoke; an unmapped (state, event) pair
is absent from the table (the source logs and re-raises there). -/

inductive FSMState
  | START
  | MAIN_MENU
  | PROMPT_AGENT
  | USE_TOOL
  | FILE_EDITS_MENU
  | SHOW_FILE_EDITS
  | CONFIRM_EDITS_ALL
  | REVERT_EDITS_ALL
  | REVIEW_EDITS_FILE_BY_FILE
  | FSM_END
deriving DecidableEq

inductive AgentEvent
  | KICKOFF
  | PROMPT_AGENT
  | MANAGE_FILE_EDITS
  | NO_FUNCTION_CALLS
  | HAS_FUNCTION_CALLS
  | FINISHED_USING_TOOL
  | SHOW_FILE_EDITS
  | FINISHED_SHOWING_FILE_EDITS
  | GO_TO_MAIN_MENU
  | USER_EXITED
  | CONFIRM_EDITS_ALL
  | REVERT_EDITS_ALL
  | FINISHED_CONFIRMING_FILE_EDITS
  | FINISHED_REVERTING_FILE_EDITS
  | NO_EDITS
  | REVIEW_EDITS_FILE_BY_FILE
  | GO_TO_FILE_EDITS_MENU
deriving DecidableEq

inductive AgentAction
  | main_menu
  | prompt_agent
  | use_tool
  | file_edits_menu
  | show_file_edits
  | confirm_edits_all
  | revert_edits_all
  | review_edits_file_by_file
deriving DecidableEq

/-- GeminiAgent._transitions, the full table.  The action component is
`none` only on the arc into the terminal state, as in the source. -/
def transitions : FSMState → AgentEvent →
    Option (FSMState × Option AgentAction)
  | .START, .KICKOFF => some (.MAIN_MENU, some .main_menu)
  | .MAIN_MENU, .PROMPT_AGENT => some (.PROMPT_AGENT, some .prompt_agent)
  | .MAIN_MENU, .MANAGE_FILE_EDITS =>
      some (.FILE_EDITS_MENU, some .file_edits_menu)
  | .PROMPT_AGENT, .PROMPT_AGENT => some (.PROMPT_AGENT, some .prompt_agent)
  | .PROMPT_AGENT, .HAS_FUNCTION_CALLS => some (.USE_TOOL, some .use_tool)
  | .PROMPT_AGENT, .NO_FUNCTION_CALLS => some (.MAIN_MENU, some .main_menu)
  | .PROMPT_AGENT, .USER_EXITED => some (.FSM_END, none)
  | .USE_TOOL, .FINISHED_USING_TOOL => some (.MAIN_MENU, some .main_menu)
  | .FILE_EDITS_MENU, .SHOW_FILE_EDITS =>
      some (.SHOW_FILE_EDITS, some .show_file_edits)
  | .FILE_EDITS_MENU, .CONFIRM_EDITS_ALL =>
      some (.CONFIRM_EDITS_ALL, some .confirm_edits_all)
  | .FILE_EDITS_MENU, .REVERT_EDITS_ALL =>
      some (.REVERT_EDITS_ALL, some .revert_edits_all)
  | .FILE_EDITS_MENU, .REVIEW_EDITS_FILE_BY_FILE =>
      some (.REVIEW_EDITS_FILE_BY_FILE, some .review_edits_file_by_file)
  | .FILE_EDITS_MENU, .GO_TO_MAIN_MENU => some (.MAIN_MENU, some .main_menu)
  | .FILE_EDITS_MENU, .NO_EDITS => some (.MAIN_MENU, some .main_menu)
  | .SHOW_FILE_EDITS, .FINISHED_SHOWING_FILE_EDITS =>
      some (.FILE_EDITS_MENU, some .file_edits_menu)
  | .CONFIRM_EDITS_ALL, .FINISHED_CONFIRMING_FILE_EDITS =>
      some (.FILE_EDITS_MENU, some .file_edits_menu)
  | .REVERT_EDITS_ALL, .FINISHED_REVERTING_FILE_EDITS =>
      some (.FILE_EDITS_MENU, some .file_edits_menu)
  | .REVIEW_EDITS_FILE_BY_FILE, .NO_EDITS =>
      some (.MAIN_MENU, some .main_menu)
  | .REVIEW_EDITS_FILE_BY_FILE, .GO_TO_FILE_EDITS_MENU =>
      some (.FILE_EDITS_MENU, some .file_edits_menu)
  | _, _ => none

/-! ### The queue drain (GeminiAgent._use_tool)

A requested call as extracted from a model response.  The identity key
used by _hash_call is built from the name and the argument items in
sorted order. -/

structure FnCall where
  name : String
  args : ToolArgs
deriving DecidableEq

/-- Insertion of a pair into a list sorted by key then value. -/
def insertPair (x : String × String) :
    List (String × String) → List (String × String)
  | [] => [x]
  | y :: ys =>
    if x.1 < y.1 ∨ (x.1 = y.1 ∧ x.2 ≤ y.2) then x :: y :: ys
    else y :: insertPair x ys

/-- sorted(call.args.items()): the argument items in a canonical
order, so that the identity key does not depend on dictionary order. -/
def sortPairs : List (String × String) → List (String × String)
  | [] => []
  | x :: xs => insertPair x (sortPairs xs)

/-- FunctionCallsQueue._hash_call: the identity key of a call, the
(name, sorted argument items) composite. -/
def hashCall (c : FnCall) : String × List (String × String) :=
  (c.name, sortPairs c.args)

/-- GeminiAgent._use_tool: pop and dispatch queued calls one at a time;
an "aborted" error from the dispatcher discards the whole queue and
ends the drain, otherwise the model sees the result (the oracle) and
its newly requested calls are merged into the queue.  The drain is cut
off by fuel (`none`); the trace accumulates the calls that were
dispatched, in order. -/
def use_tool (tb : ToolBodies) (oracle : FnCall → Envelope → List FnCall)
    (h : FnCall → K) :
    Nat → FCQueue FnCall K → List FnCall →
    Option (FCQueue FnCall K × List FnCall × AgentEvent)
  | 0, _, _ => none
  | fuel + 1, q, tr =>
    if q.isEmpty then
      some (q, tr, .FINISHED_USING_TOOL)
    else
      match FCQueue.pop h q with
      | none => none
      | some (c, q1) =>
        let env := call_tool tb c.name c.args
        if env.error = some "aborted" then
          some (FCQueue.discard q1, tr ++ [c], .FINISHED_USING_TOOL)
        else
          use_tool tb oracle h fuel (FCQueue.extend h q1 (oracle c env))
            (tr ++ [c])

/-! ### Concrete states used by the claim witnesses -/

/-- A session with no files on disk and nothing tracked. -/
def emptyTS : TrackState := ⟨fun _ => none, fun _ => none⟩

/-- A sample absolute path. -/
def pA : FPath := ⟨"/w", "a.txt"⟩

/-- One file on disk at pA, nothing tracked. -/
def oneFileTS : TrackState :=
  ⟨fun q => if q = pA then some ['x'] else none, fun _ => none⟩

/-- pA tracked with its backup: pA holds the edited content, the backup
holds the original. -/
def trackedTS : TrackState :=
  ⟨fun q =>
    if q = pA then some ['n']
    else if q = backupName pA then some ['o'] else none,
   fun q => if q = pA then some (some (backupName pA)) else none⟩

/-! ### Claim theorems -/

/-- C9: for a path p not previously tracked, track_file returns True;
a second track_file on the same path returns False and mutates no
state: the returned state is the input state itself, so no tracker
entry changes and no backup is written. -/
theorem C9_track_twice (st : TrackState) (p : FPath)
    (h : st.tracker p = none) :
    (track_file st p).2 = some true ∧
    track_file (track_file st p).1 p = ((track_file st p).1, some false) := by
  constructor
  · simp only [track_file, track_file_f, h]
    cases hfs : st.fs p <;> simp
  · simp only [track_file, track_file_f, h]
    cases hfs : st.fs p <;> simp [track_file_f, upd]

theorem C9_track_twice_witness :
    (track_file emptyTS pA).2 = some true ∧
    track_file (track_file emptyTS pA).1 pA =
      ((track_file emptyTS pA).1, some false) :=
  C9_track_twice emptyTS pA rfl

/-- C10: when the user declines the confirmation prompt of an edit_file
call, the abort happens before any tracking or file mutation: the
returned state is the input state itself, so the tracked set, the
backups on disk and the target file's content are untouched. -/
theorem C10_decline_leaves_state (canWrite : FPath → Bool)
    (st : TrackState) (p : FPath) (old new : List Char) :
    edit_file canWrite true st p old new = (st, .error .aborted) ∧
    (edit_file canWrite true st p old new).1.fs p = st.fs p ∧
    (edit_file canWrite true st p old new).1.fs (backupName p) =
      st.fs (backupName p) ∧
    (edit_file canWrite true st p old new).1.tracker p = st.tracker p := by
  refine ⟨rfl, rfl, rfl, rfl⟩

/-- C8 counterexample: confirm_file on a path that is not tracked is
not an error — it silently succeeds and changes nothing.  The claim
says it is an error. -/
theorem C8_cex :
    emptyTS.tracker pA = none ∧
    confirm_file emptyTS pA = some emptyTS := by
  exact ⟨rfl, rfl⟩

/-- C8 amended: confirm_file is harmless on any path — on a currently
tracked path it removes the entry; on an untracked path it is a silent
no-op that returns with no error and no state change (it is not an
error, contrary to the claim). -/
theorem C8_untracked_confirm_noop (st : TrackState) (p : FPath)
    (h : st.tracker p = none) : confirm_file st p = some st := by
  simp only [confirm_file, untrack_file, h]

theorem C8_untracked_confirm_noop_witness :
    confirm_file emptyTS pA = some emptyTS :=
  C8_untracked_confirm_noop emptyTS pA rfl

/-- C7: for a currently tracked path p whose entry is well formed (the
recorded backup is the one track_file wrote and is present on disk),
confirm_file succeeds, removes p from the tracked set, deletes the
backup file if the entry has one, and never modifies p's current
on-disk content. -/
theorem C7_confirm_frame (st : TrackState) (p : FPath) (bp : Option FPath)
    (ht : st.tracker p = some bp)
    (hg : ∀ b0, bp = some b0 → b0 = backupName p ∧ st.fs b0 ≠ none) :
    (confirm_file st p).isSome = true ∧
    (confirm_file st p).map (fun s2 => s2.tracker p) = some none ∧
    (confirm_file st p).map (fun s2 => s2.fs p) = some (st.fs p) ∧
    ∀ b0, bp = some b0 →
      (confirm_file st p).map (fun s2 => s2.fs b0) = some none := by
  cases bp with
  | none =>
    simp only [confirm_file, untrack_file, ht]
    refine ⟨rfl, ?_, ?_, ?_⟩
    · simp
    · simp
    · intro b0 hb0
      exact absurd hb0 (by simp)
  | some b0 =>
    obtain ⟨rfl, hfs⟩ := hg b0 rfl
    cases hfsb : st.fs (backupName p) with
    | none => exact absurd hfsb hfs
    | some c =>
      simp only [confirm_file, untrack_file, ht, hfsb]
      have hpb : p ≠ backupName p := Ne.symm (backupName_ne p)
      refine ⟨rfl, ?_, ?_, ?_⟩
      · simp
      · simp [hpb]
      · intro b1 hb1
        obtain rfl : backupName p = b1 := by simpa using hb1
        simp

theorem C7_confirm_frame_witness :
    (confirm_file trackedTS pA).isSome = true ∧
    (confirm_file trackedTS pA).map (fun s2 => s2.tracker pA) = some none ∧
    (confirm_file trackedTS pA).map (fun s2 => s2.fs pA) =
      some (trackedTS.fs pA) ∧
    (confirm_file trackedTS pA).map (fun s2 => s2.fs (backupName pA)) =
      some none := by
  have h := C7_confirm_frame trackedTS pA (some (backupName pA))
    (by decide)
    (by
      intro b0 hb0
      obtain rfl : backupName pA = b0 := by simpa using hb0
      exact ⟨rfl, by decide⟩)
  exact ⟨h.1, h.2.1, h.2.2.1, h.2.2.2 (backupName pA) rfl⟩

/-- C2: across any interleaving of extend, pop and discard starting
from the fresh queue, the deque holds each call at most once, the empty
test is true exactly when the deque is empty, and the key set is
exactly the set of keys of the queued calls — the two containers never
diverge. -/
theorem C2_queue_dedup_invariant (h : Call → K) (q : FCQueue Call K)
    (hr : QReachable h q) :
    q.dq.Nodup ∧ (q.isEmpty = true ↔ q.dq = []) ∧
    q.keys = (q.dq.map h).toFinset := by
  obtain ⟨hnod, hkeys⟩ := qinv_reachable h q hr
  refine ⟨hnod.of_map, ?_, hkeys⟩
  simp only [FCQueue.isEmpty, beq_iff_eq, Finset.card_eq_zero, hkeys,
    List.toFinset_eq_empty_iff, List.map_eq_nil_iff]

/-- A queue reached by one extend carrying a duplicated call. -/
def C2q : FCQueue Nat Nat := FCQueue.extend id FCQueue.init [5, 5, 7]

theorem C2_queue_dedup_invariant_witness :
    C2q.dq.Nodup ∧ (C2q.isEmpty = true ↔ C2q.dq = []) ∧
    C2q.keys = (C2q.dq.map id).toFinset :=
  C2_queue_dedup_invariant id C2q
    (QReachable.extend FCQueue.init [5, 5, 7] QReachable.init)

/-- C3: call_tool is total by construction and always returns an
envelope tagged with the requested tool name; an unknown tool name
yields the unsupported-tool error with result absent; when control
reaches the tool body (the registered body exists and the media-type
step did not raise), a normal value is recorded as the result with no
error, an abort is recorded as the "aborted" error, and any other
exception is captured as its string description in the envelope — it
never propagates. -/
theorem C3_call_tool_total (tb : ToolBodies) (name : String)
    (args : ToolArgs) :
    (call_tool tb name args).tool = name ∧
    (lookupTool tb name = none →
      (call_tool tb name args).result = none ∧
      (call_tool tb name args).error = some (unsupportedMsg name)) ∧
    (∀ body, lookupTool tb name = some body →
      ∀ mime, mimeStep name args = some mime →
        (∀ v, body args = .ok v →
          call_tool tb name args =
            ⟨name, some v, none, mime⟩) ∧
        (body args = .abort →
          call_tool tb name args = ⟨name, none, some "aborted", mime⟩) ∧
        (∀ d, body args = .fail d →
          call_tool tb name args = ⟨name, none, some d, mime⟩)) := by
  refine ⟨?_, ?_, ?_⟩
  · cases hm : mimeStep name args with
    | none => simp [call_tool, hm]
    | some m =>
      cases hl : lookupTool tb name with
      | none => simp [call_tool, hm, hl]
      | some body => cases hb : body args <;> simp [call_tool, hm, hl, hb]
  · intro hl
    cases hm : mimeStep name args with
    | none => simp [call_tool, hm]
    | some m => simp [call_tool, hm, hl]
  · intro body hl mime hm
    refine ⟨?_, ?_, ?_⟩
    · intro v hv
      simp [call_tool, hm, hl, hv]
    · intro hb
      simp [call_tool, hm, hl, hb]
    · intro d hd
      simp [call_tool, hm, hl, hd]

theorem C3_call_tool_total_witness :
    ((call_tool (constBodies (.ok (.str "r"))) "bogus" []).result = none ∧
     (call_tool (constBodies (.ok (.str "r"))) "bogus" []).error =
       some (unsupportedMsg "bogus")) ∧
    call_tool (constBodies (.fail "boom")) "shell" [] =
      ⟨"shell", none, some "boom", none⟩ ∧
    call_tool (constBodies (.ok (.str "out"))) "list_files" [] =
      ⟨"list_files", some (.str "out"), none, none⟩ := by
  refine ⟨?_, ?_, ?_⟩
  · exact (C3_call_tool_total (constBodies (.ok (.str "r"))) "bogus" []).2.1
      rfl
  · exact ((C3_call_tool_total (constBodies (.fail "boom")) "shell"
      []).2.2 _ rfl none rfl).2.2 "boom" rfl
  · exact ((C3_call_tool_total (constBodies (.ok (.str "out"))) "list_files"
      []).2.2 _ rfl none rfl).1 (.str "out") rfl

/-- C4: the branch behavior of the _edit_file rewrite.  old_str equal
to new_str always raises the validation error, before every other
check; because of that priority, the remaining cases hold under
old_str different from new_str: an empty old_str appends new_str to the
file (creating it when absent); with old_str occurring exactly once the
unique occurrence is replaced — the content splits as a ++ old ++ b and
becomes a ++ new ++ b — and the call returns success; zero occurrences
raise the not-found error; several occurrences raise the
ambiguous-match error. -/
theorem C4_edit_file_semantics (fs : FPath → Option (List Char))
    (p : FPath) (old new : List Char) :
    (old = new → editFileFS fs p old new = .error .sameStr) ∧
    (old = [] → old ≠ new →
      editFileFS fs p old new =
        .ok (upd fs p (some ((fs p).getD [] ++ new)), "Success")) ∧
    (∀ content, fs p = some content → old ≠ [] → old ≠ new →
      (countOcc old content = 0 →
        editFileFS fs p old new = .error .noMatch) ∧
      (countOcc old content = 1 →
        editFileFS fs p old new =
          .ok (upd fs p (some (replaceAll old new content)), "Success") ∧
        ∃ a b, content = a ++ old ++ b ∧
          replaceAll old new content = a ++ new ++ b) ∧
      (1 < countOcc old content →
        editFileFS fs p old new =
          .error (.multiMatch (countOcc old content)))) := by
  refine ⟨?_, ?_, ?_⟩
  · intro he
    simp [editFileFS, he]
  · intro he hne
    simp [editFileFS, he, Ne.symm (he ▸ hne)]
  · intro content hc hne0 hnew
    refine ⟨?_, ?_, ?_⟩
    · intro h0
      simp [editFileFS, hnew, hne0, hc, h0]
    · intro h1
      constructor
      · simp [editFileFS, hnew, hne0, hc, h1]
      · exact countOcc_one_decomp old new content h1
    · intro hgt
      simp [editFileFS, hnew, hne0, hc, Nat.pos_iff_ne_zero.1
        (Nat.lt_of_lt_of_le Nat.zero_lt_one (Nat.le_of_lt hgt)), hgt]

theorem C4_edit_file_semantics_witness :
    editFileFS oneFileTS.fs pA ['x'] ['x'] = .error .sameStr ∧
    editFileFS oneFileTS.fs pA [] ['z'] =
      .ok (upd oneFileTS.fs pA (some ((oneFileTS.fs pA).getD [] ++ ['z'])),
        "Success") ∧
    editFileFS oneFileTS.fs pA ['q'] ['z'] = .error .noMatch ∧
    editFileFS oneFileTS.fs pA ['x'] ['z'] =
      .ok (upd oneFileTS.fs pA (some (replaceAll ['x'] ['z'] ['x'])),
        "Success") ∧
    editFileFS (fun _ => some ['x', 'b', 'x']) pA ['x'] ['z'] =
      .error (.multiMatch (countOcc ['x'] ['x', 'b', 'x'])) := by
  refine ⟨?_, ?_, ?_, ?_, ?_⟩
  · exact (C4_edit_file_semantics oneFileTS.fs pA ['x'] ['x']).1 rfl
  · exact (C4_edit_file_semantics oneFileTS.fs pA [] ['z']).2.1 rfl
      (by decide)
  · exact ((C4_edit_file_semantics oneFileTS.fs pA ['q'] ['z']).2.2
      ['x'] (by decide) (by decide) (by decide)).1
      (by norm_num [countOcc, begins]; decide)
  · exact (((C4_edit_file_semantics oneFileTS.fs pA ['x'] ['z']).2.2
      ['x'] (by decide) (by decide) (by decide)).2.1
      (by norm_num [countOcc, begins])).1
  · exact ((C4_edit_file_semantics (fun _ => some ['x', 'b', 'x']) pA
      ['x'] ['z']).2.2 ['x', 'b', 'x'] rfl (by decide) (by decide)).2.2
      (by norm_num [countOcc, begins]; decide)

/-- C1: for a path p not yet tracked this session holding content C,
track_file then revert_file restores p to exactly C, leaves no backup
artifact on disk, and leaves p untracked; for a path that did not exist
and was created solely by a session edit (tracked with no backup),
revert_file deletes the file and leaves p untracked. -/
theorem C1_track_revert_roundtrip (st : TrackState) (p : FPath)
    (h : st.tracker p = none) :
    (∀ C, st.fs p = some C →
      (revert_file (track_file st p).1 p).isSome = true ∧
      (revert_file (track_file st p).1 p).map (fun x => x.1.fs p) =
        some (some C) ∧
      (revert_file (track_file st p).1 p).map
        (fun x => x.1.fs (backupName p)) = some none ∧
      (revert_file (track_file st p).1 p).map (fun x => x.1.tracker p) =
        some none) ∧
    (st.fs p = none → ∀ D, D ≠ [] →
      (edit_file (fun _ => true) false st p [] D).2 = .ok "Success" ∧
      (revert_file (edit_file (fun _ => true) false st p [] D).1 p).map
        (fun x => x.1.fs p) = some none ∧
      (revert_file (edit_file (fun _ => true) false st p [] D).1 p).map
        (fun x => x.1.tracker p) = some none) := by
  have hpb : p ≠ backupName p := Ne.symm (backupName_ne p)
  constructor
  · intro C hC
    simp only [track_file, track_file_f, h, hC]
    simp only [↓reduceIte]
    simp [revert_file, upd_self, upd_ne, hpb]
  · intro hN D hD
    have hVal : ¬([] : List Char) = D := fun hDe => hD hDe.symm
    simp only [edit_file, Bool.false_eq_true, ↓reduceIte, track_file_f, h,
      hN]
    simp only [editFileFS, hVal, ↓reduceIte]
    simp [revert_file, upd_self, hN]

theorem C1_track_revert_roundtrip_witness :
    ((revert_file (track_file oneFileTS pA).1 pA).isSome = true ∧
     (revert_file (track_file oneFileTS pA).1 pA).map
       (fun x => x.1.fs pA) = some (some ['x']) ∧
     (revert_file (track_file oneFileTS pA).1 pA).map
       (fun x => x.1.fs (backupName pA)) = some none ∧
     (revert_file (track_file oneFileTS pA).1 pA).map
       (fun x => x.1.tracker pA) = some none) ∧
    ((edit_file (fun _ => true) false emptyTS pA [] ['z']).2 =
       .ok "Success" ∧
     (revert_file (edit_file (fun _ => true) false emptyTS pA [] ['z']).1
       pA).map (fun x => x.1.fs pA) = some none ∧
     (revert_file (edit_file (fun _ => true) false emptyTS pA [] ['z']).1
       pA).map (fun x => x.1.tracker pA) = some none) := by
  constructor
  · exact (C1_track_revert_roundtrip oneFileTS pA rfl).1 ['x'] (by decide)
  · exact (C1_track_revert_roundtrip emptyTS pA rfl).2 rfl ['z'] (by decide)


/-- A failing track_file hands back the input state: the only raising
branch (the backup write) returns before recording anything. -/
theorem track_file_f_fail_state (canWrite : FPath → Bool)
    (st : TrackState) (p : FPath)
    (h : (track_file_f canWrite st p).2 = none) :
    (track_file_f canWrite st p).1 = st := by
  unfold track_file_f at h ⊢
  cases h1 : st.tracker p with
  | some b => rfl
  | none =>
    simp only [h1] at h ⊢
    cases h2 : st.fs p with
    | none => simp [h2] at h
    | some c =>
      simp only [h2] at h ⊢
      cases h3 : canWrite (backupName p) with
      | true => simp [h3] at h
      | false => simp [h3]

/-- C6 counterexample: when creating the backup fails (the operating
system rejects the write of the backup file), the failure does abort
the edit_file call — the error propagates and the edit attempt does not
proceed, leaving the target file's content untouched.  The claim says
the edit still proceeds. -/
theorem C6_cex :
    (edit_file (fun _ => false) false oneFileTS pA ['x'] ['y']).2 =
      .error .tracking ∧
    (edit_file (fun _ => false) false oneFileTS pA ['x'] ['y']).1.fs pA =
      some ['x'] := by
  exact ⟨rfl, rfl⟩

/-- C6 amended: for a mutating file edit the dispatcher invokes the
tracking step first, so the backup records the pre-edit content and the
edit runs on the tracked state; but tracking is not best-effort — when
the tracking step raises, the exception propagates out of edit_file
with the state unchanged, and the edit attempt does not proceed. -/
theorem C6_track_first_failure_propagates (canWrite : FPath → Bool)
    (st : TrackState) (p : FPath) (old new : List Char)
    (h : st.tracker p = none) :
    (∀ C, st.fs p = some C → canWrite (backupName p) = true →
      old ≠ [] → old ≠ new → countOcc old C = 1 →
      (edit_file canWrite false st p old new).2 = .ok "Success" ∧
      (edit_file canWrite false st p old new).1.fs (backupName p) =
        some C ∧
      (edit_file canWrite false st p old new).1.fs p =
        some (replaceAll old new C) ∧
      (edit_file canWrite false st p old new).1.tracker p =
        some (some (backupName p))) ∧
    ((track_file_f canWrite st p).2 = none →
      edit_file canWrite false st p old new = (st, .error .tracking)) := by
  have hpb : p ≠ backupName p := Ne.symm (backupName_ne p)
  constructor
  · intro C hC hcw hne0 hnew h1
    have hnz : ¬countOcc old C = 0 := by omega
    have hng : ¬1 < countOcc old C := by omega
    simp only [edit_file, Bool.false_eq_true, ↓reduceIte, track_file_f, h,
      hC, hcw]
    simp only [editFileFS, hnew, hne0, ↓reduceIte, upd_ne _ _ _ _ hpb, hC,
      hnz, hng]
    simp [upd_self, upd_ne, hpb, backupName_ne p]
  · intro hfail
    have hst := track_file_f_fail_state canWrite st p hfail
    have hpair : track_file_f canWrite st p = (st, none) :=
      Prod.ext_iff.2 ⟨hst, hfail⟩
    simp only [edit_file, Bool.false_eq_true, ↓reduceIte, hpair]

theorem C6_track_first_failure_propagates_witness :
    ((edit_file (fun _ => true) false oneFileTS pA ['x'] ['y']).2 =
       .ok "Success" ∧
     (edit_file (fun _ => true) false oneFileTS pA ['x']
       ['y']).1.fs (backupName pA) = some ['x'] ∧
     (edit_file (fun _ => true) false oneFileTS pA ['x'] ['y']).1.fs pA =
       some (replaceAll ['x'] ['y'] ['x']) ∧
     (edit_file (fun _ => true) false oneFileTS pA ['x']
       ['y']).1.tracker pA = some (some (backupName pA))) ∧
    edit_file (fun _ => false) false oneFileTS pA ['x'] ['y'] =
      (oneFileTS, .error .tracking) := by
  constructor
  · exact (C6_track_first_failure_propagates (fun _ => true) oneFileTS pA
      ['x'] ['y'] rfl).1 ['x'] (by decide) rfl (by decide) (by decide)
      (by norm_num [countOcc, begins])
  · exact (C6_track_first_failure_propagates (fun _ => false) oneFileTS pA
      ['x'] ['y'] rfl).2 rfl

/-- C5: when the dispatched call at the front of the queue is aborted
by the user declining its confirmation prompt, the dispatcher reports
the distinguished "aborted" error, the drain discards the whole queue —
so none of the calls still pending in that drain are ever executed (the
trace grows by that one call only) — and the drain ends with
FINISHED_USING_TOOL, which the transition table sends back to
MAIN_MENU. -/
theorem C5_abort_discards_drain (tb : ToolBodies)
    (oracle : FnCall → Envelope → List FnCall) (h : FnCall → K)
    (q : FCQueue FnCall K) (tr : List FnCall) (c : FnCall)
    (rest : List FnCall) (fuel : Nat)
    (hdq : q.dq = c :: rest) (hk : h c ∈ q.keys)
    (hne : q.isEmpty = false)
    (body : ToolArgs → ToolOutcome)
    (hl : lookupTool tb c.name = some body)
    (hb : body c.args = .abort)
    (hm : mimeStep c.name c.args = some none) :
    (call_tool tb c.name c.args).error = some "aborted" ∧
    use_tool tb oracle h (fuel + 1) q tr =
      some (⟨[], ∅⟩, tr ++ [c], .FINISHED_USING_TOOL) ∧
    transitions .USE_TOOL .FINISHED_USING_TOOL =
      some (.MAIN_MENU, some .main_menu) := by
  have herr : (call_tool tb c.name c.args).error = some "aborted" := by
    simp [call_tool, hm, hl, hb]
  refine ⟨herr, ?_, rfl⟩
  have hpop : FCQueue.pop h q = some (c, ⟨rest, q.keys.erase (h c)⟩) := by
    simp [FCQueue.pop, hdq, hk]
  simp only [use_tool, hne, Bool.false_eq_true, ↓reduceIte, hpop, herr]
  simp [FCQueue.discard]

/-- Three distinct calls queued in one model turn: the front one will be
declined. -/
def C5q : FCQueue FnCall (String × List (String × String)) :=
  FCQueue.extend hashCall FCQueue.init
    [⟨"shell", [("args", "ls -l")]⟩, ⟨"shell", [("args", "pwd")]⟩,
     ⟨"read_text_file", [("path", "a.txt")]⟩]

theorem C5_abort_discards_drain_witness :
    (call_tool (constBodies .abort) "shell" [("args", "ls -l")]).error =
      some "aborted" ∧
    use_tool (constBodies .abort) (fun _ _ => []) hashCall 3 C5q [] =
      some (⟨[], ∅⟩, [] ++ [⟨"shell", [("args", "ls -l")]⟩],
        .FINISHED_USING_TOOL) ∧
    transitions .USE_TOOL .FINISHED_USING_TOOL =
      some (.MAIN_MENU, some .main_menu) :=
  C5_abort_discards_drain (constBodies .abort) (fun _ _ => []) hashCall
    C5q [] ⟨"shell", [("args", "ls -l")]⟩
    [⟨"shell", [("args", "pwd")]⟩, ⟨"read_text_file", [("path", "a.txt")]⟩]
    2 (by decide) (by decide) (by decide) (constBodies .abort).shell rfl
    rfl rfl
